import Mathlib

/-!
Verification of the e-amp real-time audio engine (`src/App.tsx`, `src/db.ts`)
against its natural-language specification.

The development shallowly embeds:
* the node graph assembled by `connectNodes` (as an explicit edge list over
  named node identifiers, one edge per `.connect(...)` call, in source order);
* the `start`/`stop` lifecycle as an event-driven state machine at JavaScript
  event-loop task granularity (an interposed `stop` can run only at the real
  suspension points of `start`, i.e. while `setSinkId`/`getUserMedia` are
  pending; everything from the `getUserMedia` resumption through
  `setStatus('running')` is separated only by microtask boundaries on
  already-settled promises, so no user-initiated `stop` can interleave there);
* the `useEffect` reaction table that classifies configuration changes into
  hot in-place parameter writes versus full `restartAudio()` rebuilds;
* the IndexedDB recording store of `src/db.ts` (auto-increment keys, cursor
  iteration in `'prev'` direction modelled as the reverse of the rows kept in
  ascending key order, which the development proves is an invariant);
* the signal-path DSP over `ℝ`: the drive waveshaping table, the Web Audio
  `WaveShaperNode` lookup/interpolation, the Web Audio biquad filters used by
  the 5-band equalizer, the noise-gate block decision of `onaudioprocess`,
  and the reverb dry/wet mixer.
-/

namespace EAmp

/-! ### Node graph built by `connectNodes` (App.tsx lines 288–436)

One constructor per audio node created by `connectNodes`.  The five equalizer
nodes correspond to the five entries of `initialEqBands` (sub, bass, mid,
upperMid, treble) in array order. -/

inductive NodeId where
  | source
  | ngAnalyser
  | ngScript
  | ngGain
  | gainNode
  | driveNode
  | compNode
  | eqSub
  | eqBass
  | eqMid
  | eqUpperMid
  | eqTreble
  | postGainNode
  | delayNode
  | feedbackNode
  | pannerNode
  | dryNode
  | convNode
  | wetNode
  | mixerNode
  | analyserNode
  | dest
deriving DecidableEq

/-- The list of directed `connect` calls that `connectNodes` performs, in
source order, as a function of the four enabled flags.  A node whose stage is
disabled is never created and therefore appears in no edge.  The `let`-chain
mirrors the mutable `lastNode` variable of the source. -/
def connectEdges (ng comp del rev : Bool) : List (NodeId × NodeId) :=
  let l0 := NodeId.source
  let gatePart := if ng then
      [(l0, NodeId.ngAnalyser), (NodeId.ngAnalyser, NodeId.ngScript),
       (NodeId.ngScript, NodeId.dest), (l0, NodeId.ngGain)]
    else []
  let l1 := if ng then NodeId.ngGain else l0
  let gainDrivePart := [(l1, NodeId.gainNode), (NodeId.gainNode, NodeId.driveNode)]
  let l2 := NodeId.driveNode
  let compPart := if comp then [(l2, NodeId.compNode)] else []
  let l3 := if comp then NodeId.compNode else l2
  let eqChainPart :=
    [(l3, NodeId.eqSub), (NodeId.eqSub, NodeId.eqBass), (NodeId.eqBass, NodeId.eqMid),
     (NodeId.eqMid, NodeId.eqUpperMid), (NodeId.eqUpperMid, NodeId.eqTreble),
     (NodeId.eqTreble, NodeId.postGainNode)]
  let l4 := NodeId.postGainNode
  let delayPart := if del then
      [(l4, NodeId.delayNode), (NodeId.delayNode, NodeId.feedbackNode),
       (NodeId.feedbackNode, NodeId.delayNode)]
    else []
  let l5 := if del then NodeId.delayNode else l4
  let panPart := [(l5, NodeId.pannerNode)]
  let mainSignalPath := NodeId.pannerNode
  let revPart := if rev then
      [(mainSignalPath, NodeId.dryNode), (NodeId.dryNode, NodeId.mixerNode),
       (mainSignalPath, NodeId.convNode), (NodeId.convNode, NodeId.wetNode),
       (NodeId.wetNode, NodeId.mixerNode)]
    else [(mainSignalPath, NodeId.mixerNode)]
  let tapPart := [(NodeId.mixerNode, NodeId.analyserNode), (NodeId.mixerNode, NodeId.dest)]
  gatePart ++ gainDrivePart ++ compPart ++ eqChainPart ++ delayPart ++ panPart ++
    revPart ++ tapPart

/-- `l` is a directed path using only edges of `es`: every consecutive pair
of `l` is an edge. -/
def isPath : List NodeId → List (NodeId × NodeId) → Bool
  | [], _ => true
  | [_], _ => true
  | a :: b :: rest, es => es.contains (a, b) && isPath (b :: rest) es

/-- `n` occurs as an endpoint of some edge in `es`. -/
def occursIn (n : NodeId) (es : List (NodeId × NodeId)) : Bool :=
  es.any (fun e => e.1 = n || e.2 = n)

/-- The main signal chain, as the specification lists it except that the
analyzer is a tap: the final mixer feeds the sink directly. -/
def mainChain (ng comp del rev : Bool) : List NodeId :=
  [NodeId.source] ++ (if ng then [NodeId.ngGain] else []) ++
  [NodeId.gainNode, NodeId.driveNode] ++
  (if comp then [NodeId.compNode] else []) ++
  [NodeId.eqSub, NodeId.eqBass, NodeId.eqMid, NodeId.eqUpperMid, NodeId.eqTreble,
   NodeId.postGainNode] ++
  (if del then [NodeId.delayNode] else []) ++
  [NodeId.pannerNode] ++
  (if rev then [NodeId.dryNode] else []) ++
  [NodeId.mixerNode, NodeId.dest]

/-! ### Engine lifecycle (`start` lines 438–492, `stop` lines 494–520)

The state machine tracks the `status` React state and the nullable refs that
`start`/`stop` write.  `startPhase1` is the synchronous prefix of `start`
(creating the `AudioContext`); `startPhase2` is the continuation that runs
when device acquisition settles, and it executes atomically with respect to
user events (see the module docstring).  `deviceOk` models whether
`getUserMedia` resolved; `buildOk` models whether node construction and
wiring inside the `try` block succeeded.  Any exception lands in the `catch`,
which logs (`console.error`) and does `setStatus('error')`. -/

inductive EngStatus where
  | stopped
  | running
  | error
deriving DecidableEq

structure EngineState where
  status : EngStatus
  ctxLive : Bool
  streamHeld : Bool
  sourceHeld : Bool
  graphInstalled : Bool
  errorLogged : Bool
deriving DecidableEq

def initialEngine : EngineState :=
  ⟨EngStatus.stopped, false, false, false, false, false⟩

/-- Synchronous prefix of `start`: `audioContextRef.current = new AudioContext(...)`. -/
def startPhase1 (s : EngineState) : EngineState :=
  ⟨s.status, true, s.streamHeld, s.sourceHeld, s.graphInstalled, s.errorLogged⟩

/-- Continuation of `start` after device acquisition settles.  On success it
stores the stream, calls `createMediaStreamSource` (which throws on a null
context, e.g. after an interposed `stop`), runs the `connectNodes` body, sets
up the recorder and finally `setStatus('running')`.  Any throw reaches the
`catch`, which logs the error and sets status `'error'`. -/
def startPhase2 (deviceOk buildOk : Bool) (s : EngineState) : EngineState :=
  if deviceOk then
    let s1 : EngineState :=
      ⟨s.status, s.ctxLive, true, s.sourceHeld, s.graphInstalled, s.errorLogged⟩
    if s1.ctxLive then
      let s2 : EngineState :=
        ⟨s1.status, s1.ctxLive, s1.streamHeld, true, s1.graphInstalled, s1.errorLogged⟩
      if buildOk then
        ⟨EngStatus.running, s2.ctxLive, s2.streamHeld, s2.sourceHeld, true, s2.errorLogged⟩
      else
        ⟨EngStatus.error, s2.ctxLive, s2.streamHeld, s2.sourceHeld, s2.graphInstalled, true⟩
    else
      ⟨EngStatus.error, s1.ctxLive, s1.streamHeld, s1.sourceHeld, s1.graphInstalled, true⟩
  else
    ⟨EngStatus.error, s.ctxLive, s.streamHeld, s.sourceHeld, s.graphInstalled, true⟩

/-- `stop`: stops the tracks and nulls the stream ref, closes and nulls the
audio context (destroying every node of the installed graph), nulls the node
refs, and `setStatus('stopped')`. -/
def stopEngine (s : EngineState) : EngineState :=
  ⟨EngStatus.stopped, false, false, false, false, s.errorLogged⟩

inductive EngEvent where
  | startBegin
  | startResume (deviceOk buildOk : Bool)
  | stopReq
deriving DecidableEq

def engStep (s : EngineState) (e : EngEvent) : EngineState :=
  match e with
  | EngEvent.startBegin => startPhase1 s
  | EngEvent.startResume dOk bOk => startPhase2 dOk bOk s
  | EngEvent.stopReq => stopEngine s

def engRun (evs : List EngEvent) : EngineState :=
  evs.foldl engStep initialEngine

/-! ### Hot-update vs structural classification (App.tsx lines 169–171, 530–582)

Each `useEffect` of the source that reacts to a configuration value is listed
with its dependency fields and its action: either it writes directly into the
live node (`writeLive`) or it calls `restartAudio()` (`restartEngine`). -/

inductive ConfigField where
  | gainAmount
  | driveAmount
  | eqGainDb
  | eqFrequency
  | eqQ
  | postGainAmount
  | compressorCoeff
  | delayTime
  | delayFeedback
  | panValue
  | reverbMix
  | noiseGateThreshold
  | noiseGateRelease
  | compressorEnabled
  | delayEnabled
  | noiseGateEnabled
  | reverbEnabled
  | inputDevice
  | outputDevice
  | latencyHint
deriving DecidableEq, Fintype

inductive EffectAction where
  | writeLive
  | restartEngine
deriving DecidableEq

/-- The reaction table, one entry per `useEffect`, in source order:
noise-gate ref snapshot (169), gain (530), drive curve (534), eq bands (547),
post gain (557), device/latency restart (561), enable-flag restart (562),
compressor params (565), delay time (574), delay feedback (575), pan (576),
reverb mix (577). -/
def effectTable : List (List ConfigField × EffectAction) :=
  [([ConfigField.noiseGateThreshold, ConfigField.noiseGateRelease], EffectAction.writeLive),
   ([ConfigField.gainAmount], EffectAction.writeLive),
   ([ConfigField.driveAmount], EffectAction.writeLive),
   ([ConfigField.eqGainDb, ConfigField.eqFrequency, ConfigField.eqQ], EffectAction.writeLive),
   ([ConfigField.postGainAmount], EffectAction.writeLive),
   ([ConfigField.inputDevice, ConfigField.outputDevice, ConfigField.latencyHint],
      EffectAction.restartEngine),
   ([ConfigField.compressorEnabled, ConfigField.delayEnabled, ConfigField.noiseGateEnabled,
      ConfigField.reverbEnabled], EffectAction.restartEngine),
   ([ConfigField.compressorCoeff], EffectAction.writeLive),
   ([ConfigField.delayTime], EffectAction.writeLive),
   ([ConfigField.delayFeedback], EffectAction.writeLive),
   ([ConfigField.panValue], EffectAction.writeLive),
   ([ConfigField.reverbMix], EffectAction.writeLive)]

/-- A change to field `f` triggers a full rebuild (new node identities). -/
def codeTriggersRebuild (f : ConfigField) : Bool :=
  effectTable.any (fun e => e.1.contains f && e.2 == EffectAction.restartEngine)

/-- A change to field `f` is written into the already-installed live node. -/
def codeWritesLive (f : ConfigField) : Bool :=
  effectTable.any (fun e => e.1.contains f && e.2 == EffectAction.writeLive)

/-- The specification's classification table (§4.1): enabling/disabling any
effect stage, device selection and latency are structural; every continuous
value change is hot. -/
def specStructural (f : ConfigField) : Bool :=
  match f with
  | ConfigField.compressorEnabled => true
  | ConfigField.delayEnabled => true
  | ConfigField.noiseGateEnabled => true
  | ConfigField.reverbEnabled => true
  | ConfigField.inputDevice => true
  | ConfigField.outputDevice => true
  | ConfigField.latencyHint => true
  | _ => false

/-! ### Recording store (`src/db.ts`)

`addRecording` adds a record under an auto-increment key, `deleteRecording`
deletes by key, `getAllRecordings` iterates a cursor in `'prev'` (descending
key) direction.  Rows are kept in ascending key order — the order of the
IndexedDB object store — so the `'prev'` cursor produces `rows.reverse`; the
development proves that keys are strictly increasing along `rows`, which
justifies this reading. -/

structure RecRow where
  id : ℕ
  payload : ℕ
deriving DecidableEq

structure RecDB where
  nextId : ℕ
  rows : List RecRow
deriving DecidableEq

/-- Fresh object store: IndexedDB auto-increment keys start at 1. -/
def emptyDB : RecDB := ⟨1, []⟩

/-- `addRecording`: `store.add(recording)` under the next auto-increment key. -/
def addRecording (db : RecDB) (p : ℕ) : RecDB :=
  ⟨db.nextId + 1, db.rows ++ [⟨db.nextId, p⟩]⟩

/-- `deleteRecording(id)`: `store.delete(id)`. -/
def deleteRecording (db : RecDB) (i : ℕ) : RecDB :=
  ⟨db.nextId, db.rows.filter (fun r => r.id != i)⟩

/-- `getAllRecordings`: `openCursor(null, 'prev')`, collecting rows in
descending key order. -/
def getAllRecordings (db : RecDB) : List RecRow :=
  db.rows.reverse

inductive DBOp where
  | append (p : ℕ)
  | remove (i : ℕ)
deriving DecidableEq

def recStep (db : RecDB) (op : DBOp) : RecDB :=
  match op with
  | DBOp.append p => addRecording db p
  | DBOp.remove i => deleteRecording db i

def runOps (ops : List DBOp) : RecDB :=
  ops.foldl recStep emptyDB

/-- Specification-side account of the store: a newest-first list (an append
pushes at the front) from which a delete removes the matching id. -/
def specStep (st : List RecRow × ℕ) (op : DBOp) : List RecRow × ℕ :=
  match op with
  | DBOp.append p => (⟨st.2, p⟩ :: st.1, st.2 + 1)
  | DBOp.remove i => (st.1.filter (fun r => r.id != i), st.2)

def newestFirst (ops : List DBOp) : List RecRow :=
  (ops.foldl specStep ([], 1)).1

/-- The module-level guard message of `src/db.ts`. -/
def dbNotInitialized : String := "Database not initialized."

/-- The world seen by the persistence operations: whether the module-level
`db` handle was set by `initDB`, plus the object store contents. -/
structure DBWorld where
  handle : Bool
  store : RecDB
deriving DecidableEq

/-- `addRecording` as exposed: rejects before touching the store when the
handle is unset. -/
def addRecordingOp (w : DBWorld) (p : ℕ) : Except String Unit × DBWorld :=
  if w.handle then (Except.ok (), ⟨w.handle, addRecording w.store p⟩)
  else (Except.error dbNotInitialized, w)

/-- `getAllRecordings` as exposed. -/
def getAllRecordingsOp (w : DBWorld) : Except String (List RecRow) × DBWorld :=
  if w.handle then (Except.ok (getAllRecordings w.store), w)
  else (Except.error dbNotInitialized, w)

/-- `deleteRecording` as exposed. -/
def deleteRecordingOp (w : DBWorld) (i : ℕ) : Except String Unit × DBWorld :=
  if w.handle then (Except.ok (), ⟨w.handle, deleteRecording w.store i⟩)
  else (Except.error dbNotInitialized, w)

/-! ### Drive waveshaping curve (App.tsx lines 333–341 and 534–545)

`curve[i] = ((3 + k) * x * 20 * deg) / (Math.PI + k * Math.abs(x))` with
`x = (i*2)/256 - 1`, `k = drive * 50`, `deg = Math.PI / 180`. -/

noncomputable def driveCurveFun (k x : ℝ) : ℝ :=
  ((3 + k) * x * 20 * (Real.pi / 180)) / (Real.pi + k * |x|)

noncomputable def driveX (i : ℕ) : ℝ := ((i : ℝ) * 2) / 256 - 1

noncomputable def driveCurve (drive : ℝ) (i : ℕ) : ℝ :=
  driveCurveFun (drive * 50) (driveX i)

/-! ### Web Audio `WaveShaperNode` semantics

Table lookup with linear interpolation: the input sample `x` is mapped to the
fractional index `v = (n-1)/2 * (x+1)`; values below the table are clamped to
the first entry, above to the last, and interior values interpolate between
the two surrounding entries. -/

noncomputable def waveShape (c : ℕ → ℝ) (n : ℕ) (x : ℝ) : ℝ :=
  if ((n : ℝ) - 1) / 2 * (x + 1) ≤ 0 then c 0
  else if (n : ℝ) - 1 ≤ ((n : ℝ) - 1) / 2 * (x + 1) then c (n - 1)
  else
    c ⌊((n : ℝ) - 1) / 2 * (x + 1)⌋.toNat +
      (((n : ℝ) - 1) / 2 * (x + 1) - ⌊((n : ℝ) - 1) / 2 * (x + 1)⌋) *
        (c (⌊((n : ℝ) - 1) / 2 * (x + 1)⌋.toNat + 1) -
          c ⌊((n : ℝ) - 1) / 2 * (x + 1)⌋.toNat)

/-! ### Web Audio `BiquadFilterNode` semantics (equalizer bands)

Coefficient formulas of the Web Audio specification for the three filter
kinds the source uses (`lowshelf`, `peaking`, `highshelf`), with
`A = 10^(dB/40)`, `ω₀ = 2π f / Fs`, `α = sin ω₀ / (2Q)` for peaking and
`α = sin ω₀ / 2 * sqrt((A + 1/A)(1/S - 1) + 2)` with shelf slope `S = 1` for
the shelves.  Processing is the normalized direct-form difference equation
`y[m] = (b0 x[m] + b1 x[m-1] + b2 x[m-2] - a1 y[m-1] - a2 y[m-2]) / a0`. -/

inductive FilterType where
  | lowshelf
  | peaking
  | highshelf
deriving DecidableEq

structure BiquadCoeffs where
  b0 : ℝ
  b1 : ℝ
  b2 : ℝ
  a0 : ℝ
  a1 : ℝ
  a2 : ℝ

noncomputable def biquadCoeffs (ty : FilterType) (fs f q dB : ℝ) : BiquadCoeffs :=
  let A := (10 : ℝ) ^ (dB / 40)
  let w := 2 * Real.pi * f / fs
  let cw := Real.cos w
  let sw := Real.sin w
  match ty with
  | FilterType.peaking =>
    let al := sw / (2 * q)
    ⟨1 + al * A, -2 * cw, 1 - al * A, 1 + al / A, -2 * cw, 1 - al / A⟩
  | FilterType.lowshelf =>
    let al := sw / 2 * Real.sqrt ((A + 1 / A) * (1 / 1 - 1) + 2)
    ⟨A * ((A + 1) - (A - 1) * cw + 2 * Real.sqrt A * al),
     2 * A * ((A - 1) - (A + 1) * cw),
     A * ((A + 1) - (A - 1) * cw - 2 * Real.sqrt A * al),
     (A + 1) + (A - 1) * cw + 2 * Real.sqrt A * al,
     -2 * ((A - 1) + (A + 1) * cw),
     (A + 1) + (A - 1) * cw - 2 * Real.sqrt A * al⟩
  | FilterType.highshelf =>
    let al := sw / 2 * Real.sqrt ((A + 1 / A) * (1 / 1 - 1) + 2)
    ⟨A * ((A + 1) + (A - 1) * cw + 2 * Real.sqrt A * al),
     -2 * A * ((A - 1) + (A + 1) * cw),
     A * ((A + 1) + (A - 1) * cw - 2 * Real.sqrt A * al),
     (A + 1) - (A - 1) * cw + 2 * Real.sqrt A * al,
     2 * ((A - 1) - (A + 1) * cw),
     (A + 1) - (A - 1) * cw - 2 * Real.sqrt A * al⟩

structure BqState where
  x1 : ℝ
  x2 : ℝ
  y1 : ℝ
  y2 : ℝ

noncomputable def biquadRunAux (c : BiquadCoeffs) : BqState → List ℝ → List ℝ
  | _, [] => []
  | s, x :: xs =>
    ((c.b0 * x + c.b1 * s.x1 + c.b2 * s.x2 - c.a1 * s.y1 - c.a2 * s.y2) / c.a0) ::
      biquadRunAux c
        ⟨x, s.x1,
         (c.b0 * x + c.b1 * s.x1 + c.b2 * s.x2 - c.a1 * s.y1 - c.a2 * s.y2) / c.a0,
         s.y1⟩ xs

/-- A `BiquadFilterNode` starts from zeroed delay lines. -/
noncomputable def biquadRun (c : BiquadCoeffs) (xs : List ℝ) : List ℝ :=
  biquadRunAux c ⟨0, 0, 0, 0⟩ xs

/-! ### The equalizer bands and the optional-free signal chain -/

/-- One entry of the `eqBands` state: filter kind, centre/corner frequency,
gain in dB, and the optional Q (`filter.Q` is only assigned when the band
carries a `q`; the Web Audio default Q of 1 applies otherwise). -/
structure EqBandCfg where
  ftype : FilterType
  freq : ℝ
  gain : ℝ
  q : Option ℝ

/-- The five-band equalizer section: the biquads are wired in series in array
order. -/
noncomputable def applyEq (fs : ℝ) (bands : List EqBandCfg) (xs : List ℝ) : List ℝ :=
  bands.foldl
    (fun sig b => biquadRun (biquadCoeffs b.ftype fs b.freq (b.q.getD 1) b.gain) sig) xs

/-- `initialEqBands` with all gains at 0 dB (the `flat` preset). -/
noncomputable def flatBands : List EqBandCfg :=
  [⟨FilterType.lowshelf, 60, 0, none⟩,
   ⟨FilterType.peaking, 250, 0, some 1⟩,
   ⟨FilterType.peaking, 1000, 0, some 1⟩,
   ⟨FilterType.peaking, 4000, 0, some 1⟩,
   ⟨FilterType.highshelf, 10000, 0, none⟩]

/-- Sample-stream semantics of the chain built by `connectNodes` when all
four optional stages (noise gate, compressor, delay, reverb) are disabled:
`source → gain → drive → eq×5 → postGain → panner → finalMixer → destination`
(cf. `c2_chain_structure`).  The context runs at the 44100 Hz sample rate
requested by `start`.  The signal is tracked as one (mono) sample stream; the
stereo panner repositions it across output channels without altering the
stream itself, and the final mixer is a gain node at its default gain 1. -/
noncomputable def runChainNoFx (gain drive postGain : ℝ) (bands : List EqBandCfg)
    (xs : List ℝ) : List ℝ :=
  let afterGain := xs.map (fun s => gain * s)
  let afterDrive := afterGain.map (fun s => waveShape (driveCurve drive) 256 s)
  let afterEq := applyEq 44100 bands afterDrive
  let afterPost := afterEq.map (fun s => postGain * s)
  afterPost.map (fun s => 1 * s)

/-! ### Noise-gate block decision (App.tsx lines 295–326)

The `onaudioprocess` handler reads the live `{threshold, release}` snapshot,
converts the threshold from dB, computes the RMS of the byte time-domain data
normalized by `(val - 128) / 128`, and emits one `setTargetAtTime` command
per block: target 1 with time constant 0.01 s above the threshold, else
target 0 with the configured release. -/

structure GateCmd where
  target : ℝ
  timeConstant : ℝ

noncomputable def gateRms (data : List ℕ) : ℝ :=
  Real.sqrt
    ((data.foldl (fun (acc : ℝ) (v : ℕ) => acc + (((v : ℝ) - 128) / 128) ^ 2) 0) /
      data.length)

noncomputable def gateThresholdValue (thresholdDb : ℝ) : ℝ :=
  (10 : ℝ) ^ (thresholdDb / 20)

noncomputable def noiseGateStep (thresholdDb release : ℝ) (data : List ℕ) : GateCmd :=
  if gateThresholdValue thresholdDb < gateRms data then ⟨1, 0.01⟩ else ⟨0, release⟩

/-- Specification-side normalization of a byte sample to the [-1, 1]
representation centred at 128. -/
noncomputable def specNormalizedSample (v : ℕ) : ℝ := ((v : ℝ) - 128) / 128

/-- Specification-side RMS: `sqrt(mean(sample^2))` over normalized samples. -/
noncomputable def specRms (samples : List ℝ) : ℝ :=
  Real.sqrt ((samples.map (fun s => s ^ 2)).sum / samples.length)

/-- Specification-side threshold conversion: `10^(thresholdDb/20)`. -/
noncomputable def specThresholdLinear (db : ℝ) : ℝ := (10 : ℝ) ^ (db / 20)

/-- Specification-side gate decision: toward 1 with the ~0.01 s fast constant
above threshold, else toward 0 with the configured release constant. -/
noncomputable def specGateStep (thresholdDb release : ℝ) (samples : List ℝ) : GateCmd :=
  if specThresholdLinear thresholdDb < specRms samples then ⟨1, 1 / 100⟩
  else ⟨0, release⟩

/-! ### Reverb dry/wet mix (App.tsx lines 396–428 and 577–582) -/

/-- The gains written into the dry and wet gain nodes: `1 - mix` and `mix`. -/
noncomputable def reverbDryWetGains (mix : ℝ) : ℝ × ℝ := (1 - mix, mix)

/-- The final mixer sums its two inputs samplewise. -/
noncomputable def finalMixerSum (dry wet : List ℝ) : List ℝ :=
  List.zipWith (fun a b => a + b) dry wet

/-- The reverb fork: the main signal feeds the dry gain and, through the
convolver (abstracted as an arbitrary length-preserving block transform
`conv`), the wet gain; both remerge at the final mixer. -/
noncomputable def reverbStage (mix : ℝ) (conv : List ℝ → List ℝ) (xs : List ℝ) :
    List ℝ :=
  finalMixerSum (xs.map (fun s => (reverbDryWetGains mix).1 * s))
    ((conv xs).map (fun s => (reverbDryWetGains mix).2 * s))

/-- The bypass branch taken when reverb is disabled: the main signal goes
straight into the final mixer (a gain node at its default gain 1). -/
noncomputable def reverbBypass (xs : List ℝ) : List ℝ :=
  xs.map (fun s => 1 * s)

/-! ### Theorems: graph structure (C2) -/

/-- C2 counterexample.  The claimed fixed chain ends `… → analyzerTap → sink`,
but the graph built by `connectNodes` (here with every optional stage
disabled) contains no edge from the analyser into the destination: the final
mixer feeds the destination directly, and the analyser is only a tap off the
mixer.  The literal chain of the claim is therefore not a path of the built
graph. -/
theorem c2_literal_chain_fails :
    isPath
        [NodeId.source, NodeId.gainNode, NodeId.driveNode, NodeId.eqSub, NodeId.eqBass,
         NodeId.eqMid, NodeId.eqUpperMid, NodeId.eqTreble, NodeId.postGainNode,
         NodeId.pannerNode, NodeId.analyserNode, NodeId.dest]
        (connectEdges false false false false) = false ∧
    (NodeId.analyserNode, NodeId.dest) ∉ connectEdges false false false false ∧
    (NodeId.mixerNode, NodeId.analyserNode) ∈ connectEdges false false false false ∧
    (NodeId.mixerNode, NodeId.dest) ∈ connectEdges false false false false := by
  decide

set_option synthInstance.maxSize 1024
set_option synthInstance.maxHeartbeats 1000000

/-- C2 (amended).  For every combination of enabled flags, the graph built by
one rebuild realizes the chain `source → [noiseGate] → gain → drive →
[compressor] → eq(sub) → eq(bass) → eq(mid) → eq(upperMid) → eq(treble) →
postGain → [delay+feedback] → panner → [reverb dry branch] → finalMixer →
sink`, with the analyser attached as a tap off the final mixer (not in series
before the sink); each bracketed stage is present exactly when its flag is
set, and a disabled optional stage's nodes occur in no edge at all (spliced
out, never a no-op).  When delay is enabled its feedback loop cycles through
the feedback gain; when reverb is enabled the wet branch
`panner → convolver → wetGain → mixer` exists alongside the dry branch;
when the noise gate is enabled its analyser → scriptProcessor side chain is
wired to the destination as a keep-alive. -/
theorem c2_chain_structure :
    ∀ ng comp del rev : Bool,
      isPath (mainChain ng comp del rev) (connectEdges ng comp del rev) = true ∧
      (NodeId.mixerNode, NodeId.analyserNode) ∈ connectEdges ng comp del rev ∧
      (ng = false →
        occursIn NodeId.ngGain (connectEdges ng comp del rev) = false ∧
        occursIn NodeId.ngAnalyser (connectEdges ng comp del rev) = false ∧
        occursIn NodeId.ngScript (connectEdges ng comp del rev) = false) ∧
      (comp = false →
        occursIn NodeId.compNode (connectEdges ng comp del rev) = false) ∧
      (del = false →
        occursIn NodeId.delayNode (connectEdges ng comp del rev) = false ∧
        occursIn NodeId.feedbackNode (connectEdges ng comp del rev) = false) ∧
      (rev = false →
        occursIn NodeId.dryNode (connectEdges ng comp del rev) = false ∧
        occursIn NodeId.convNode (connectEdges ng comp del rev) = false ∧
        occursIn NodeId.wetNode (connectEdges ng comp del rev) = false) ∧
      (del = true →
        (NodeId.delayNode, NodeId.feedbackNode) ∈ connectEdges ng comp del rev ∧
        (NodeId.feedbackNode, NodeId.delayNode) ∈ connectEdges ng comp del rev) ∧
      (rev = true →
        (NodeId.pannerNode, NodeId.convNode) ∈ connectEdges ng comp del rev ∧
        (NodeId.convNode, NodeId.wetNode) ∈ connectEdges ng comp del rev ∧
        (NodeId.wetNode, NodeId.mixerNode) ∈ connectEdges ng comp del rev) ∧
      (ng = true →
        (NodeId.source, NodeId.ngAnalyser) ∈ connectEdges ng comp del rev ∧
        (NodeId.ngAnalyser, NodeId.ngScript) ∈ connectEdges ng comp del rev ∧
        (NodeId.ngScript, NodeId.dest) ∈ connectEdges ng comp del rev) := by
  intro ng comp del rev
  cases ng <;> cases comp <;> cases del <;> cases rev <;> decide

/-! ### Theorems: lifecycle (C3, C8) -/

/-- C3.  If `stop()` runs while a `start()` is still in flight (between the
synchronous prefix that creates the context and the continuation that runs
once device acquisition settles — the only window in which a user-event
`stop` can interleave), then whatever the outcome of device acquisition and
graph construction, the late start result is discarded: the graph is never
installed and the engine does not transition to Running (the resumed
continuation throws on the nulled context and the `catch` leaves it in
Error). -/
theorem c3_stop_cancels_start :
    ∀ deviceOk buildOk : Bool,
      (engRun [EngEvent.startBegin, EngEvent.stopReq,
               EngEvent.startResume deviceOk buildOk]).graphInstalled = false ∧
      (engRun [EngEvent.startBegin, EngEvent.stopReq,
               EngEvent.startResume deviceOk buildOk]).status ≠ EngStatus.running := by
  intro deviceOk buildOk
  cases deviceOk <;> cases buildOk <;> decide

/-- C8 counterexample.  A failure while constructing and wiring the node
graph (an exception inside the `try` of `start`, after the device was
acquired) leaves the engine in the Error state, not Stopped: the single
`catch` branch does `console.error` followed by `setStatus('error')`. -/
theorem c8_failure_not_stopped :
    (engRun [EngEvent.startBegin, EngEvent.startResume true false]).status ≠
        EngStatus.stopped ∧
    (engRun [EngEvent.startBegin, EngEvent.startResume true false]).status =
        EngStatus.error ∧
    (engRun [EngEvent.startBegin, EngEvent.startResume true false]).errorLogged = true := by
  decide

/-- C8 (amended).  When graph construction fails during `start`, the failure
is logged and the engine ends in the Error state (not Stopped): from any
engine state, the resumed continuation with a failed build reaches the
`catch`, which logs and sets status `'error'`. -/
theorem c8_rebuild_failure_error_state :
    ∀ s : EngineState,
      (startPhase2 true false s).status = EngStatus.error ∧
      (startPhase2 true false s).errorLogged = true := by
  intro s
  cases hc : s.ctxLive <;> simp [startPhase2, hc]

/-! ### Theorems: classification (C7) -/

/-- C7.  The reaction table of the source classifies configuration changes
exactly as the specification's table: a field triggers a full
`restartAudio()` rebuild (new node identities) precisely when it is one of
the structural fields (an enable/disable flag, the device selection, or the
latency), and every other (continuous-value) field is written directly into
the already-installed live node by some effect and triggers no rebuild. -/
theorem c7_hot_structural_classification :
    ∀ f : ConfigField,
      codeTriggersRebuild f = specStructural f ∧
      codeWritesLive f = !specStructural f := by
  intro f
  cases f <;> decide

/-! ### Theorems: recording store (C9, C10) -/

/-- Keys along the rows are strictly increasing. -/
def rowsAscending (l : List RecRow) : Prop :=
  List.Pairwise (fun a b => a.id < b.id) l

lemma runOps_invariant (ops : List DBOp) :
    ∀ db : RecDB, (∀ r ∈ db.rows, r.id < db.nextId) → rowsAscending db.rows →
      (ops.foldl recStep db).rows.reverse =
          (ops.foldl specStep (db.rows.reverse, db.nextId)).1 ∧
      (ops.foldl recStep db).nextId =
          (ops.foldl specStep (db.rows.reverse, db.nextId)).2 ∧
      (∀ r ∈ (ops.foldl recStep db).rows, r.id < (ops.foldl recStep db).nextId) ∧
      rowsAscending (ops.foldl recStep db).rows := by
  induction ops with
  | nil =>
    intro db hb hp
    exact ⟨rfl, rfl, hb, hp⟩
  | cons op ops ih =>
    intro db hb hp
    have hstep :
        (recStep db op).rows.reverse = (specStep (db.rows.reverse, db.nextId) op).1 ∧
        (recStep db op).nextId = (specStep (db.rows.reverse, db.nextId) op).2 := by
      cases op with
      | append p => simp [recStep, specStep, addRecording]
      | remove i =>
        refine ⟨?_, rfl⟩
        simp only [recStep, specStep, deleteRecording]
        exact (List.filter_reverse _ _).symm
    have hb2 : ∀ r ∈ (recStep db op).rows, r.id < (recStep db op).nextId := by
      cases op with
      | append p =>
        intro r hr
        simp only [recStep, addRecording, List.mem_append, List.mem_singleton] at hr
        rcases hr with hr | hr
        · exact Nat.lt_succ_of_lt (hb r hr)
        · subst hr; exact Nat.lt_succ_self _
      | remove i =>
        intro r hr
        simp only [recStep, deleteRecording] at hr ⊢
        exact hb r (List.mem_of_mem_filter hr)
    have hp2 : rowsAscending (recStep db op).rows := by
      cases op with
      | append p =>
        simp only [recStep, addRecording, rowsAscending]
        rw [List.pairwise_append]
        refine ⟨hp, List.pairwise_singleton _ _, ?_⟩
        intro a ha b hbmem
        simp only [List.mem_singleton] at hbmem
        subst hbmem
        exact hb a ha
      | remove i =>
        exact List.Pairwise.sublist (List.filter_sublist _) hp
    have hres := ih (recStep db op) hb2 hp2
    simp only [List.foldl_cons]
    have hacc : ((recStep db op).rows.reverse, (recStep db op).nextId)
        = specStep (db.rows.reverse, db.nextId) op := by
      rw [hstep.1, hstep.2]
    rw [← hacc]
    exact hres

/-- C9.  For every sequence of append and delete operations run from a fresh
store, the list operation returns exactly the surviving records ordered
newest-first (descending insertion order); moreover the keys stored along the
object store rows are strictly increasing, which is what makes the `'prev'`
cursor iteration (reverse of store order) coincide with descending insertion
order. -/
theorem c9_list_newest_first (ops : List DBOp) :
    getAllRecordings (runOps ops) = newestFirst ops ∧
    rowsAscending (runOps ops).rows := by
  have h := runOps_invariant ops emptyDB
      (by intro r hr; simp [emptyDB] at hr) (by simp [emptyDB, rowsAscending])
  refine ⟨?_, h.2.2.2⟩
  have h1 := h.1
  simpa [runOps, newestFirst, getAllRecordings, emptyDB] using h1

/-- C10 (implicit claim).  If the module-level database handle has not been
set by `initDB`, each persistence operation rejects with the
`Database not initialized.` error and the world — in particular the stored
recordings — is left unchanged: the guard returns before any transaction is
opened, so no partial write or delete occurs. -/
theorem c10_uninitialized_rejects (w : DBWorld) (p i : ℕ) (h : w.handle = false) :
    addRecordingOp w p = (Except.error dbNotInitialized, w) ∧
    getAllRecordingsOp w = (Except.error dbNotInitialized, w) ∧
    deleteRecordingOp w i = (Except.error dbNotInitialized, w) := by
  simp [addRecordingOp, getAllRecordingsOp, deleteRecordingOp, h]

/-- Witness for C10 at a concrete uninitialized world. -/
theorem c10_uninitialized_rejects_witness :
    (DBWorld.mk false emptyDB).handle = false ∧
    (addRecordingOp ⟨false, emptyDB⟩ 0 = (Except.error dbNotInitialized, ⟨false, emptyDB⟩) ∧
     getAllRecordingsOp ⟨false, emptyDB⟩ = (Except.error dbNotInitialized, ⟨false, emptyDB⟩) ∧
     deleteRecordingOp ⟨false, emptyDB⟩ 0 = (Except.error dbNotInitialized, ⟨false, emptyDB⟩)) :=
  ⟨rfl, c10_uninitialized_rejects ⟨false, emptyDB⟩ 0 0 rfl⟩

/-! ### Theorems: noise gate (C4) -/

lemma foldl_add_eq_sum (f : ℕ → ℝ) :
    ∀ (l : List ℕ) (a : ℝ),
      l.foldl (fun (acc : ℝ) (v : ℕ) => acc + f v) a = a + (l.map f).sum := by
  intro l
  induction l with
  | nil => intro a; simp
  | cons x xs ih =>
    intro a
    simp only [List.foldl_cons, List.map_cons, List.sum_cons]
    rw [ih (a + f x)]
    ring

/-- C4.  For every block of byte time-domain data and every configured
threshold/release, the gate decision computed by the `onaudioprocess` handler
coincides with the specification's account: the RMS is
`sqrt(mean(sample^2))` over the samples normalized to [-1, 1] by
`(val - 128)/128`, the threshold is converted as `10^(thresholdDb/20)`, and
the emitted command moves the gate gain toward 1 with the ~0.01 s fast time
constant when `rms > thresholdLinear`, else toward 0 with the configured
release time constant. -/
theorem c4_noise_gate_refines_spec (thresholdDb release : ℝ) (data : List ℕ) :
    noiseGateStep thresholdDb release data
      = specGateStep thresholdDb release (data.map specNormalizedSample) := by
  unfold noiseGateStep specGateStep gateRms specRms gateThresholdValue specThresholdLinear
  have hsum : data.foldl (fun (acc : ℝ) (v : ℕ) => acc + (((v : ℝ) - 128) / 128) ^ 2) 0
      = ((data.map specNormalizedSample).map (fun s => s ^ 2)).sum := by
    rw [List.map_map,
      foldl_add_eq_sum (fun v => (((v : ℝ) - 128) / 128) ^ 2) data 0]
    simp only [zero_add, Function.comp_def, specNormalizedSample]
  have hcmd : (⟨1, 0.01⟩ : GateCmd) = ⟨1, 1 / 100⟩ := by norm_num
  rw [hsum, List.length_map, hcmd]

/-! ### Theorems: drive curve odd symmetry (C5) -/

lemma driveDenom_pos (k x : ℝ) (hk : 0 ≤ k) : 0 < Real.pi + k * |x| :=
  add_pos_of_pos_of_nonneg Real.pi_pos (mul_nonneg hk (abs_nonneg x))

/-- The underlying transfer function is exactly odd. -/
lemma driveCurveFun_neg (k x : ℝ) : driveCurveFun k (-x) = -driveCurveFun k x := by
  unfold driveCurveFun
  rw [abs_neg, show (3 + k) * -x * 20 * (Real.pi / 180)
      = -((3 + k) * x * 20 * (Real.pi / 180)) by ring, neg_div]

lemma cross_term_bound (x y h : ℝ) (hh : 0 ≤ h) (hxy : y = x + h) :
    abs (x * |y| - y * |x|) ≤ 2 * h ^ 2 := by
  rcases le_or_lt 0 x with hx0 | hx0
  · have hy0 : 0 ≤ y := by linarith
    rw [abs_of_nonneg hx0, abs_of_nonneg hy0,
      show x * y - y * x = 0 by ring, abs_zero]
    positivity
  · rcases le_or_lt 0 y with hy0 | hy1
    · rw [abs_of_nonneg hy0, abs_of_neg hx0,
        show x * y - y * -x = 2 * (x * y) by ring]
      have hneg : 2 * (x * y) ≤ 0 := by nlinarith
      rw [abs_of_nonpos hneg]
      nlinarith
    · rw [abs_of_neg hx0, abs_of_neg hy1,
        show x * -y - y * -x = 0 by ring, abs_zero]
      positivity

/-- Consecutive curve samples of the table differ by at most `1/10`:
a Lipschitz-style bound for the transfer function over one half step of the
256-entry table, uniformly in `k = drive * 50 ∈ [0, 50]`. -/
lemma driveCurveFun_step_bound (k x y : ℝ) (hk0 : 0 ≤ k) (hk1 : k ≤ 50)
    (hxy : y = x + 1 / 128) (hx : |x| ≤ 1) (hy : |y| ≤ 1) :
    |driveCurveFun k x - driveCurveFun k y| ≤ 1 / 10 := by
  have hD1 : 0 < Real.pi + k * |x| := driveDenom_pos k x hk0
  have hD2 : 0 < Real.pi + k * |y| := driveDenom_pos k y hk0
  have hπ : 0 < Real.pi := Real.pi_pos
  have hπ3 : 3 < Real.pi := Real.pi_gt_three
  have hC0 : 0 ≤ (3 + k) * 20 * (Real.pi / 180) := by positivity
  have key : driveCurveFun k x - driveCurveFun k y
      = (3 + k) * 20 * (Real.pi / 180) *
          (Real.pi * (x - y) + k * (x * |y| - y * |x|)) /
          ((Real.pi + k * |x|) * (Real.pi + k * |y|)) := by
    unfold driveCurveFun
    field_simp
    ring
  have hdiff : |x - y| = 1 / 128 := by
    rw [show x - y = -(1 / 128) by rw [hxy]; ring, abs_neg,
      abs_of_pos (by norm_num : (0 : ℝ) < 1 / 128)]
  have hct := cross_term_bound x y (1 / 128) (by norm_num) hxy
  have hnum : abs (Real.pi * (x - y) + k * (x * |y| - y * |x|))
      ≤ Real.pi * (1 / 128) + k * (2 * (1 / 128) ^ 2) := by
    calc abs (Real.pi * (x - y) + k * (x * |y| - y * |x|))
        ≤ |Real.pi * (x - y)| + abs (k * (x * |y| - y * |x|)) := abs_add _ _
      _ = Real.pi * |x - y| + k * abs (x * |y| - y * |x|) := by
          rw [abs_mul, abs_mul, abs_of_pos hπ, abs_of_nonneg hk0]
      _ ≤ Real.pi * (1 / 128) + k * (2 * (1 / 128) ^ 2) :=
          add_le_add (by rw [hdiff]) (mul_le_mul_of_nonneg_left hct hk0)
  have hDD : Real.pi * Real.pi ≤ (Real.pi + k * |x|) * (Real.pi + k * |y|) := by
    have l1 : Real.pi ≤ Real.pi + k * |x| :=
      le_add_of_nonneg_right (mul_nonneg hk0 (abs_nonneg x))
    have l2 : Real.pi ≤ Real.pi + k * |y| :=
      le_add_of_nonneg_right (mul_nonneg hk0 (abs_nonneg y))
    exact mul_le_mul l1 l2 hπ.le (by positivity)
  rw [key, abs_div, abs_mul, abs_of_nonneg hC0, abs_of_pos (mul_pos hD1 hD2)]
  have step1 : (3 + k) * 20 * (Real.pi / 180) *
        abs (Real.pi * (x - y) + k * (x * |y| - y * |x|)) /
        ((Real.pi + k * |x|) * (Real.pi + k * |y|))
      ≤ (3 + k) * 20 * (Real.pi / 180) *
        (Real.pi * (1 / 128) + k * (2 * (1 / 128) ^ 2)) / (Real.pi * Real.pi) :=
    div_le_div (by positivity) (mul_le_mul_of_nonneg_left hnum hC0) (by positivity) hDD
  refine le_trans step1 ?_
  have expand : (3 + k) * 20 * (Real.pi / 180) *
        (Real.pi * (1 / 128) + k * (2 * (1 / 128) ^ 2)) / (Real.pi * Real.pi)
      = (3 + k) / 1152 + (3 + k) * k / (73728 * Real.pi) := by
    field_simp
    ring
  rw [expand]
  have t1 : (3 + k) / 1152 ≤ 53 / 1152 := by
    apply div_le_div_of_nonneg_right ?_ ?_ <;> first | linarith | norm_num
  have t2 : (3 + k) * k / (73728 * Real.pi) ≤ 2650 / 221184 := by
    have hnum2 : (3 + k) * k ≤ 2650 := by nlinarith
    have hden2 : (73728 : ℝ) * 3 ≤ 73728 * Real.pi := by nlinarith
    calc (3 + k) * k / (73728 * Real.pi) ≤ 2650 / (73728 * 3) :=
          div_le_div (by norm_num) hnum2 (by norm_num) hden2
      _ = 2650 / 221184 := by norm_num
  have final : (53 : ℝ) / 1152 + 2650 / 221184 ≤ 1 / 10 := by norm_num
  linarith

/-- C5.  For every drive in [0, 1] and every index `i < 256`, the generated
waveshaping table is odd-symmetric up to the half-step offset of its index
grid: `|curve[255-i] + curve[i]| ≤ 1/10` (the underlying transfer function is
exactly odd — `driveCurveFun_neg` — and `x(255-i) = -(x(i) + 1/128)`, one
table step away from the exact mirror point, so the residual is bounded by
the one-step variation of the curve). -/
theorem c5_drive_curve_odd_symmetric (d : ℝ) (i : ℕ)
    (hd0 : 0 ≤ d) (hd1 : d ≤ 1) (hi : i < 256) :
    |driveCurve d (255 - i) + driveCurve d i| ≤ 1 / 10 := by
  have hi' : i ≤ 255 := Nat.lt_succ_iff.mp hi
  have hk0 : 0 ≤ d * 50 := by positivity
  have hk1 : d * 50 ≤ 50 := by nlinarith
  have hiR : (i : ℝ) ≤ 255 := by exact_mod_cast hi'
  have hiR0 : (0 : ℝ) ≤ (i : ℝ) := Nat.cast_nonneg i
  have hx255 : driveX (255 - i) = -(driveX i + 1 / 128) := by
    unfold driveX
    rw [Nat.cast_sub hi']
    push_cast
    ring
  have hxb : |driveX i| ≤ 1 := by
    unfold driveX
    rw [abs_le]
    constructor <;> nlinarith
  have hyb : |driveX i + 1 / 128| ≤ 1 := by
    unfold driveX
    rw [abs_le]
    constructor <;> nlinarith
  have heq : driveCurve d (255 - i) + driveCurve d i
      = driveCurveFun (d * 50) (driveX i)
        - driveCurveFun (d * 50) (driveX i + 1 / 128) := by
    unfold driveCurve
    rw [hx255, driveCurveFun_neg]
    ring
  rw [heq]
  exact driveCurveFun_step_bound (d * 50) (driveX i) (driveX i + 1 / 128)
    hk0 hk1 rfl hxb hyb

/-- Witness for C5 at drive 0 and index 0. -/
theorem c5_drive_curve_odd_symmetric_witness :
    (0 : ℝ) ≤ 0 ∧ (0 : ℝ) ≤ 1 ∧ 0 < 256 ∧
      |driveCurve 0 (255 - 0) + driveCurve 0 0| ≤ 1 / 10 :=
  ⟨le_refl 0, by norm_num, by norm_num,
    c5_drive_curve_odd_symmetric 0 0 (le_refl 0) (by norm_num) (by norm_num)⟩

/-! ### Theorems: reverb dry/wet mix (C6) -/

lemma zipWith_add_map_zero :
    ∀ (xs ys : List ℝ), ys.length = xs.length →
      List.zipWith (fun a b => a + b) xs (ys.map (fun s => (0 : ℝ) * s)) = xs := by
  intro xs
  induction xs with
  | nil => intro ys _; simp
  | cons x xs ih =>
    intro ys hlen
    cases ys with
    | nil => simp at hlen
    | cons y ys =>
      simp only [List.map_cons, List.zipWith_cons_cons]
      simp only [List.length_cons, Nat.succ_inj] at hlen
      rw [ih ys hlen, zero_mul, add_zero]

/-- C6.  For every mix in [0, 1] the reverb fork applies `dryGain = 1 - mix`
and `wetGain = mix`, both summed at the single final mixer node (so the two
gains always sum to 1); and at `mix = 0` the output of the reverb-enabled
fork equals the output of the bypassed graph for every input block and every
(length-preserving) convolver response: the wet branch is scaled to zero and
the dry branch passes unchanged. -/
theorem c6_reverb_mix (mix : ℝ) (conv : List ℝ → List ℝ) (xs : List ℝ)
    (h0 : 0 ≤ mix) (h1 : mix ≤ 1) (hlen : (conv xs).length = xs.length) :
    (reverbDryWetGains mix).1 = 1 - mix ∧
    (reverbDryWetGains mix).2 = mix ∧
    (reverbDryWetGains mix).1 + (reverbDryWetGains mix).2 = 1 ∧
    reverbStage 0 conv xs = reverbBypass xs := by
  refine ⟨rfl, rfl, by simp [reverbDryWetGains], ?_⟩
  unfold reverbStage finalMixerSum reverbBypass reverbDryWetGains
  simp only [sub_zero, one_mul]
  rw [List.map_id']
  rw [zipWith_add_map_zero xs (conv xs) hlen]

/-- Witness for C6 at `mix = 1/2`, the identity convolver and a one-sample
block. -/
theorem c6_reverb_mix_witness :
    (0 : ℝ) ≤ 1 / 2 ∧ (1 : ℝ) / 2 ≤ 1 ∧
      ((fun l : List ℝ => l) [(1 : ℝ)]).length = [(1 : ℝ)].length ∧
      ((reverbDryWetGains (1 / 2)).1 = 1 - 1 / 2 ∧
       (reverbDryWetGains (1 / 2)).2 = 1 / 2 ∧
       (reverbDryWetGains (1 / 2)).1 + (reverbDryWetGains (1 / 2)).2 = 1 ∧
       reverbStage 0 (fun l : List ℝ => l) [(1 : ℝ)] = reverbBypass [(1 : ℝ)]) :=
  ⟨by norm_num, by norm_num, rfl,
    c6_reverb_mix (1 / 2) (fun l => l) [(1 : ℝ)] (by norm_num) (by norm_num) rfl⟩

/-! ### Theorems: the gain-2/drive-0/flat-EQ scenario (C1) -/

/-- At drive 0 the table encodes the linear map `x/3`: entry `i` is
`((i - 128)/128) / 3`.  The `π` of the `deg` factor cancels against the `π`
of the denominator. -/
lemma driveCurve_zero (i : ℕ) : driveCurve 0 i = ((i : ℝ) - 128) / 384 := by
  unfold driveCurve driveCurveFun driveX
  have hπ : Real.pi ≠ 0 := Real.pi_ne_zero
  simp only [zero_mul, mul_zero, add_zero, zero_add]
  field_simp
  ring

/-- On inputs in [-1, 1] the drive-0 waveshaper computes the affine map
`x ↦ (255x - 1)/768` exactly: the table is linear, so the clamped,
interpolated lookup reduces to the table's own line. -/
lemma waveShape_drive0 (x : ℝ) (h0 : -1 ≤ x) (h1 : x ≤ 1) :
    waveShape (driveCurve 0) 256 x = (255 * x - 1) / 768 := by
  have hcast : ((256 : ℕ) : ℝ) = 256 := by norm_num
  unfold waveShape
  rw [hcast]
  set v := ((256 : ℝ) - 1) / 2 * (x + 1) with hv
  by_cases hle : v ≤ 0
  · rw [if_pos hle, driveCurve_zero]
    have hx1 : x = -1 := le_antisymm (by rw [hv] at hle; linarith) h0
    subst hx1
    norm_num
  · rw [if_neg hle]
    by_cases hge : (256 : ℝ) - 1 ≤ v
    · rw [if_pos hge, driveCurve_zero]
      have hx1 : x = 1 := le_antisymm h1 (by rw [hv] at hge; linarith)
      subst hx1
      norm_num
    · rw [if_neg hge]
      push_neg at hle
      have hfl0 : (0 : ℤ) ≤ ⌊v⌋ := Int.floor_nonneg.mpr hle.le
      have hofl : ((⌊v⌋.toNat : ℕ) : ℝ) = ((⌊v⌋ : ℤ) : ℝ) := by
        rw [← Int.cast_natCast, Int.toNat_of_nonneg hfl0]
      rw [driveCurve_zero, driveCurve_zero]
      push_cast
      rw [hofl, hv]
      ring

/-- The normalized biquad difference equation is the identity whenever the
numerator coefficients equal the denominator coefficients, provided the
delay-line invariant `x1 = y1`, `x2 = y2` holds (it does from the zero
state and is preserved). -/
lemma biquadRunAux_id (c : BiquadCoeffs) (hb0 : c.b0 = c.a0) (hb1 : c.b1 = c.a1)
    (hb2 : c.b2 = c.a2) (ha : c.a0 ≠ 0) :
    ∀ (xs : List ℝ) (s : BqState), s.x1 = s.y1 → s.x2 = s.y2 →
      biquadRunAux c s xs = xs := by
  intro xs
  induction xs with
  | nil => intro s _ _; rfl
  | cons x xs ih =>
    intro s h1 h2
    have hy : (c.b0 * x + c.b1 * s.x1 + c.b2 * s.x2 - c.a1 * s.y1 - c.a2 * s.y2) / c.a0
        = x := by
      rw [hb0, hb1, hb2, ← h1, ← h2]
      field_simp
      ring
    simp only [biquadRunAux]
    rw [hy]
    exact congrArg (x :: ·) (ih ⟨x, s.x1, x, s.y1⟩ rfl h1)

/-- At 0 dB the Web Audio coefficients of each filter kind have identical
numerator and denominator (`A = 10^0 = 1`), with nonzero leading denominator
coefficient (the frequency stays in the valid band `0 ≤ f ≤ fs/2`, so
`sin ω₀ ≥ 0` and the `α` terms are nonnegative). -/
lemma biquadCoeffs_flat_eq (ty : FilterType) (fs f q : ℝ)
    (hfs : 0 < fs) (hf0 : 0 ≤ f) (hf2 : 2 * f ≤ fs) (hq : 0 < q) :
    (biquadCoeffs ty fs f q 0).b0 = (biquadCoeffs ty fs f q 0).a0 ∧
    (biquadCoeffs ty fs f q 0).b1 = (biquadCoeffs ty fs f q 0).a1 ∧
    (biquadCoeffs ty fs f q 0).b2 = (biquadCoeffs ty fs f q 0).a2 ∧
    (biquadCoeffs ty fs f q 0).a0 ≠ 0 := by
  have hA : (10 : ℝ) ^ ((0 : ℝ) / 40) = 1 := by
    rw [show (0 : ℝ) / 40 = 0 by norm_num, Real.rpow_zero]
  have hw0 : 0 ≤ 2 * Real.pi * f / fs := by positivity
  have hwpi : 2 * Real.pi * f / fs ≤ Real.pi := by
    rw [div_le_iff hfs]
    nlinarith [Real.pi_pos]
  have hs : 0 ≤ Real.sin (2 * Real.pi * f / fs) :=
    Real.sin_nonneg_of_nonneg_of_le_pi hw0 hwpi
  have hsq2 : (0 : ℝ) ≤ Real.sqrt 2 := Real.sqrt_nonneg 2
  cases ty with
  | peaking =>
    simp only [biquadCoeffs, hA]
    refine ⟨by norm_num, by trivial, by norm_num, ?_⟩
    have hal : 0 ≤ Real.sin (2 * Real.pi * f / fs) / (2 * q) := by positivity
    intro hcontra
    rw [div_one] at hcontra
    linarith
  | lowshelf =>
    simp only [biquadCoeffs, hA, Real.sqrt_one]
    refine ⟨by ring, by ring, by ring, ?_⟩
    have harg : ((1 : ℝ) + 1 / 1) * (1 / 1 - 1) + 2 = 2 := by norm_num
    rw [harg]
    have hprod : 0 ≤ Real.sin (2 * Real.pi * f / fs) / 2 * Real.sqrt 2 := by positivity
    intro hcontra
    nlinarith [hprod]
  | highshelf =>
    simp only [biquadCoeffs, hA, Real.sqrt_one]
    refine ⟨by ring, by ring, by ring, ?_⟩
    have harg : ((1 : ℝ) + 1 / 1) * (1 / 1 - 1) + 2 = 2 := by norm_num
    rw [harg]
    have hprod : 0 ≤ Real.sin (2 * Real.pi * f / fs) / 2 * Real.sqrt 2 := by positivity
    intro hcontra
    nlinarith [hprod]

/-- A 0 dB band of any of the three kinds passes the block through
unchanged. -/
lemma biquadRun_flat (ty : FilterType) (fs f q : ℝ)
    (hfs : 0 < fs) (hf0 : 0 ≤ f) (hf2 : 2 * f ≤ fs) (hq : 0 < q) (xs : List ℝ) :
    biquadRun (biquadCoeffs ty fs f q 0) xs = xs := by
  obtain ⟨h0, h1, h2, ha⟩ := biquadCoeffs_flat_eq ty fs f q hfs hf0 hf2 hq
  exact biquadRunAux_id _ h0 h1 h2 ha xs ⟨0, 0, 0, 0⟩ rfl rfl

/-- The flat preset leaves every block unchanged. -/
lemma applyEq_flat (xs : List ℝ) : applyEq 44100 flatBands xs = xs := by
  simp only [applyEq, flatBands, List.foldl_cons, List.foldl_nil,
    Option.getD_none, Option.getD_some]
  rw [biquadRun_flat FilterType.highshelf 44100 10000 1
      (by norm_num) (by norm_num) (by norm_num) (by norm_num),
    biquadRun_flat FilterType.peaking 44100 4000 1
      (by norm_num) (by norm_num) (by norm_num) (by norm_num),
    biquadRun_flat FilterType.peaking 44100 1000 1
      (by norm_num) (by norm_num) (by norm_num) (by norm_num),
    biquadRun_flat FilterType.peaking 44100 250 1
      (by norm_num) (by norm_num) (by norm_num) (by norm_num),
    biquadRun_flat FilterType.lowshelf 44100 60 1
      (by norm_num) (by norm_num) (by norm_num) (by norm_num)]

/-- The chain at gain 2, drive 0, flat EQ, post gain 1 reduces to the
waveshaper's affine map applied to the doubled input. -/
lemma runChainNoFx_gain2_drive0 (xs : List ℝ) (h : ∀ x ∈ xs, |x| ≤ 1 / 2) :
    runChainNoFx 2 0 1 flatBands xs = xs.map (fun s => (510 * s - 1) / 768) := by
  unfold runChainNoFx
  rw [List.map_map, List.map_map, applyEq_flat, List.map_map]
  apply List.map_congr_left
  intro a ha
  have hmem := h a ha
  rw [abs_le] at hmem
  simp only [Function.comp_apply]
  rw [waveShape_drive0 (2 * a) (by linarith [hmem.1]) (by linarith [hmem.2])]
  ring

/-- C1 counterexample.  With gain 2, drive 0, flat EQ, post gain 1 and all
optional stages disabled, the input block `[1/2]` produces the output block
`[127/384] ≈ [0.33]`, while the claim demands `[1]`; the difference 257/384
is far beyond floating-point epsilon.  The reason: the drive-0 waveshaper
curve is `x/3`, not the identity, so the chain scales by 2/3 rather than 2. -/
theorem c1_not_input_times_two :
    runChainNoFx 2 0 1 flatBands [(1 : ℝ) / 2] = [(127 : ℝ) / 384] ∧
    ¬ |(127 : ℝ) / 384 - 2 * (1 / 2)| ≤ 1 / 100 := by
  constructor
  · rw [runChainNoFx_gain2_drive0]
    · norm_num
    · intro x hx
      simp only [List.mem_singleton] at hx
      subst hx
      rw [abs_le]
      constructor <;> norm_num
  · have hval : (127 : ℝ) / 384 - 2 * (1 / 2) = -(257 / 384) := by norm_num
    rw [hval, abs_neg, abs_of_pos (by norm_num : (0 : ℝ) < 257 / 384)]
    norm_num

/-- C1 (amended).  For the claimed configuration (gain 2, drive 0, flat EQ,
post gain 1, every optional stage disabled) and any input block of samples
bounded by 1/2 (so the doubled samples stay inside the waveshaper table), the
output stream is `map (s ↦ (510·s - 1)/768)` of the input — i.e. the input
scaled by ~2/3 (2 from the gain stage, 1/3 from the drive-0 curve) with the
table's half-step offset, not the input scaled by 2. -/
theorem c1_chain_output_scaled (xs : List ℝ) (h : ∀ x ∈ xs, |x| ≤ 1 / 2) :
    runChainNoFx 2 0 1 flatBands xs = xs.map (fun s => (510 * s - 1) / 768) :=
  runChainNoFx_gain2_drive0 xs h

/-- Witness for the amended C1 on the one-sample block `[1/4]`. -/
theorem c1_chain_output_scaled_witness :
    (∀ x ∈ [(1 : ℝ) / 4], |x| ≤ 1 / 2) ∧
    runChainNoFx 2 0 1 flatBands [(1 : ℝ) / 4]
      = [(1 : ℝ) / 4].map (fun s => (510 * s - 1) / 768) := by
  have hmem : ∀ x ∈ [(1 : ℝ) / 4], |x| ≤ 1 / 2 := by
    intro x hx
    simp only [List.mem_singleton] at hx
    subst hx
    rw [abs_le]
    constructor <;> norm_num
  exact ⟨hmem, c1_chain_output_scaled [(1 : ℝ) / 4] hmem⟩

end EAmp
